import Mathlib

/-!
Verification of the parameter-fixing adapter of the erlotinib repository
("ReducedLogPDF", src/erlotinib/_log_pdfs.py), predictive sampling models
(src/erlotinib/_predictive_models.py) and the optimisation controller
contract, as a shallow embedding in Lean.

Real-valued quantities of the Python code (numpy floats) are modelled as
rationals; external collaborators (the wrapped log-pdf, the mechanistic
simulator, the error models, the prior, the numerical optimiser) are
modelled as function-valued fields, exactly at the interface the code
consumes them.
-/

/-- A Python scalar as it can appear in a user-supplied mask sequence.
"np.asarray(mask).dtype == bool" holds exactly when every entry is a
Python bool and the sequence is non-empty (numpy gives the empty array
dtype float64). -/
inductive PyVal where
  | pybool (b : Bool)
  | pyint (n : ℤ)
  | pyfloat (q : ℚ)
  | pystr (s : String)
deriving DecidableEq

/-- True when the scalar is a Python bool. -/
def PyVal.isBool : PyVal → Bool
  | .pybool _ => true
  | _ => false

/-- Models "np.asarray(mask).dtype == bool": all entries are Python bools
and the sequence is non-empty (numpy assigns the empty array dtype
float64, not bool). -/
def boolDtype (l : List PyVal) : Bool :=
  !l.isEmpty && l.all PyVal.isBool

/-- The boolean content of a mask sequence (meaningful once "boolDtype"
holds; non-bool entries default to false). -/
def maskBools (l : List PyVal) : List Bool :=
  l.map fun v => match v with
    | .pybool b => b
    | _ => false

/-- An external "pints.LogPDF" collaborator: a scalar objective together
with its declared parameter count. -/
structure LogPDF where
  f : List ℚ → ℚ
  n_parameters : ℕ

/-- Models the numpy fancy assignment "buffer[mask] = xs": walks the
buffer and the boolean mask in parallel and writes the entries of xs into
the mask-true positions in ascending index order. -/
def writeMasked : List (Option ℚ) → List Bool → List ℚ → List (Option ℚ)
  | [], _, _ => []
  | buf, [], _ => buf
  | b :: buf, m :: ms, xs =>
    match m, xs with
    | true, x :: rest => some x :: writeMasked buf ms rest
    | true, [] => b :: writeMasked buf ms []
    | false, _ => b :: writeMasked buf ms xs

/-- The state of a constructed ReducedLogPDF (src/erlotinib/_log_pdfs.py):
the wrapped objective, the internal full-length parameter buffer
"_parameters" (fixed slots filled, free slots uninitialised), the negated
mask "_mask" (true marks a free position) and the stored free-parameter
count "_n_parameters". -/
structure ReducedLogPDF where
  log_pdf : List ℚ → ℚ
  parameters : List (Option ℚ)
  free_mask : List Bool
  n_parameters : ℕ

/-- ReducedLogPDF.__init__: validates the mask length against the wrapped
parameter count of the objective, the numpy dtype of the mask, and the number
of fixed values against the number of true mask entries; on success
builds the internal buffer with the fixed values scattered into the
mask-true positions. Error strings are the messages of the source. -/
def ReducedLogPDF.init (lp : LogPDF) (mask : List PyVal) (values : List ℚ) :
    Except String ReducedLogPDF :=
  if mask.length ≠ lp.n_parameters then
    .error "Length of mask has to match the number of log-pdf parameters."
  else if !boolDtype mask then
    .error "Mask has to be a boolean array."
  else
    let maskB := maskBools mask
    if maskB.count true ≠ values.length then
      .error "The have to be as many value inputs as the number of fixed parameters."
    else
      .ok {
        log_pdf := lp.f
        parameters := writeMasked (List.replicate mask.length none) maskB values
        free_mask := maskB.map (fun b => !b)
        n_parameters := (maskB.map (fun b => !b)).count true }

/-- ReducedLogPDF.__call__: writes the free parameters into the free
(mask-true in "_mask") positions of the internal buffer and applies the
wrapped objective to the full-length vector. An uninitialised buffer slot
(never read on correctly sized input) is read as 0. -/
def ReducedLogPDF.call (r : ReducedLogPDF) (free : List ℚ) : ℚ :=
  r.log_pdf ((writeMasked r.parameters r.free_mask free).map (fun o => o.getD 0))

/-- Lifts ReducedLogPDF.call over a possibly failed construction. -/
def ReducedLogPDF.callE (e : Except String ReducedLogPDF) (free : List ℚ) :
    Except String ℚ :=
  e.map (fun r => r.call free)

/-- Builds the adapter for (objective, mask, values) after an intermediate
adapter construction with the same objective, the all-false mask and no
fixed values, aborting if the intermediate construction itself fails. -/
def ReducedLogPDF.buildAfterIntermediate (lp : LogPDF) (mask : List PyVal)
    (values : List ℚ) : Except String ReducedLogPDF :=
  match ReducedLogPDF.init lp (List.replicate lp.n_parameters (PyVal.pybool false)) [] with
  | .error e => .error e
  | .ok _ => ReducedLogPDF.init lp mask values

/-- The full-length vector ReducedLogPDF.__call__ hands to the wrapped
objective: mask-true positions take the fixed values in ascending index
order, mask-false positions take the free inputs in ascending index
order. -/
def scatter : List Bool → List ℚ → List ℚ → List ℚ
  | [], _, _ => []
  | true :: ms, v :: vs, fs => v :: scatter ms vs fs
  | true :: ms, [], fs => 0 :: scatter ms [] fs
  | false :: ms, vs, f :: fs => f :: scatter ms vs fs
  | false :: ms, vs, [] => 0 :: scatter ms vs []

/-- A myokit dose event as the code consumes it: dose rate ("level"),
administration duration, start time, period (0 means a single
administration) and multiplier (number of doses; 0 means indefinite
repetition). -/
structure DoseEvent where
  level : ℚ
  duration : ℚ
  start : ℚ
  period : ℚ
  multiplier : ℕ
deriving DecidableEq

/-- One row of the dosing-regimen table: columns Time, Duration, Dose. -/
structure DoseRow where
  time : ℚ
  duration : ℚ
  dose : ℚ
deriving DecidableEq

/-- The rows PredictiveModel.get_dosing_regimen produces for one dose
event (src/erlotinib/_predictive_models.py, lines 181-228). The "some t"
branch is a finite final time; the "none" branch models final_time =
np.inf (the comparison "start_time > inf" is never true, "np.isfinite"
is false, and the "<= inf" filter keeps everything). In Python
"int(final_time // period)" is the floor of the quotient. -/
def eventRows (ev : DoseEvent) (ft : Option ℚ) : List DoseRow :=
  let amount := ev.level * ev.duration
  match ft with
  | some t =>
    if ev.start > t then []
    else if ev.period = 0 then [⟨ev.start, ev.duration, amount⟩]
    else
      let n_doses := if ev.multiplier = 0 then (Rat.floor (t / ev.period)).toNat
        else ev.multiplier
      (((List.range n_doses).map (fun n => ev.start + (n : ℚ) * ev.period)).filter
        (fun dt => dt ≤ t)).map (fun dt => ⟨dt, ev.duration, amount⟩)
  | none =>
    if ev.period = 0 then [⟨ev.start, ev.duration, amount⟩]
    else
      let n_doses := if ev.multiplier = 0 then 1 else ev.multiplier
      ((List.range n_doses).map (fun n => ev.start + (n : ℚ) * ev.period)).map
        (fun dt => ⟨dt, ev.duration, amount⟩)

/-- PredictiveModel.get_dosing_regimen (src/erlotinib/_predictive_models.py,
lines 132-238). The first argument models the regimen access of the
mechanistic model: "none" means the model does not support dosing regimens (the
attribute access raises AttributeError, caught and turned into a None
return); "some none" means no regimen is set; "some (some events)" is a
set regimen. "final_time = none" models the Python default None, replaced
by np.inf before the negativity check. An empty result table is returned
as None. -/
def getDosingRegimen (support : Option (Option (List DoseEvent)))
    (final_time : Option ℚ) : Except String (Option (List DoseRow)) :=
  match support with
  | none => .ok none
  | some none => .ok none
  | some (some regimen) =>
    match final_time with
    | some t =>
      if t < 0 then .error "The final dose time has to be positive."
      else
        let rows := regimen.flatMap (fun ev => eventRows ev (some t))
        .ok (if rows.isEmpty then none else some rows)
    | none =>
      let rows := regimen.flatMap (fun ev => eventRows ev none)
      .ok (if rows.isEmpty then none else some rows)

/-- An external error-model collaborator: its declared parameter count and
its "sample(parameters, model_output, n_samples, seed)" routine, returning
a (time x sample) matrix as a list of rows. -/
structure ErrorModel where
  n_parameters : ℕ
  sample : List ℚ → List ℚ → ℕ → Option ℤ → List (List ℚ)

instance : Inhabited ErrorModel := ⟨⟨0, fun _ _ _ _ => []⟩⟩

/-- An external mechanistic-model collaborator: its parameter count, its
"simulate(parameters, times)" oracle returning one row per output, and its
output names. -/
structure MechanisticModel where
  n_parameters : ℕ
  simulate : List ℚ → List ℚ → List (List ℚ)
  outputs : List String

/-- PredictiveModel: a mechanistic model with one error model per output
(src/erlotinib/_predictive_models.py, class PredictiveModel). -/
structure PredictiveModel where
  mechanistic : MechanisticModel
  error_models : List ErrorModel

/-- PredictiveModel._n_parameters: the mechanistic parameter count plus
the parameter count of every error model (the length of the concatenated
parameter-name list). -/
def PredictiveModel.n_parameters (m : PredictiveModel) : ℕ :=
  m.mechanistic.n_parameters + (m.error_models.map (fun em => em.n_parameters)).sum

/-- Models "np.sort(times)": the ascending sort of the list, duplicates
preserved. -/
def npSort (l : List ℚ) : List ℚ :=
  List.insertionSort (fun a b => a ≤ b) l

/-- The per-output sampling loop of PredictiveModel.sample
(src/erlotinib/_predictive_models.py, lines 331-343): error model i
receives the slice of the error parameters starting at the running
start index, of its own parameter count, together with the i-th
mechanistic output. -/
def buildContainer : List ErrorModel → List ℚ → List (List ℚ) → ℕ → Option ℤ →
    List (List (List ℚ))
  | [], _, _, _, _ => []
  | em :: rest, errp, outputs, n, s =>
    em.sample (errp.take em.n_parameters) (outputs.headD []) n s
      :: buildContainer rest (errp.drop em.n_parameters) outputs.tail n s

/-- PredictiveModel.sample with return_df=False
(src/erlotinib/_predictive_models.py, lines 274-347): validates the
parameter length, sorts the times, splits the parameters into the
mechanistic prefix and the error-model rest, solves the mechanistic model
once, and samples every error model around its output. -/
def PredictiveModel.sampleContainer (m : PredictiveModel) (parameters times : List ℚ)
    (n_samples : ℕ) (seed : Option ℤ) : Except String (List (List (List ℚ))) :=
  if parameters.length ≠ m.n_parameters then
    .error "The length of parameters does not match n_parameters."
  else
    let sorted_times := npSort times
    let mechanistic_params := parameters.take m.mechanistic.n_parameters
    let error_params := parameters.drop m.mechanistic.n_parameters
    let outputs := m.mechanistic.simulate mechanistic_params sorted_times
    .ok (buildContainer m.error_models error_params outputs n_samples seed)

/-- The start index of the parameter slice of error model i: the sum of the
parameter counts of the error models before it. -/
def errOffset (ems : List ErrorModel) (i : ℕ) : ℕ :=
  ((ems.take i).map (fun em => em.n_parameters)).sum

/-- Follows the words of the claim, for comparison with the source: the times
the claim says the mechanistic model is solved over, namely the sorted,
de-duplicated times. -/
def sortedDedupTimes (l : List ℚ) : List ℚ :=
  (npSort l).dedup

/-- One row of the predictive-sample table: columns Sample ID, Biomarker,
Time, Sample. -/
structure SampleRow where
  sample_id : ℕ
  biomarker : String
  time : ℚ
  value : ℚ
deriving DecidableEq

/-- The per-output row block PriorPredictiveModel.sample appends for one
draw (src/erlotinib/_predictive_models.py, lines 520-525): for every
output and every time index, a row with the sample id of the draw, the output
name, the time, and entry [output, time, 0] of the predictive-model
result. -/
def sampleRowsFor (outputs : List String) (times : List ℚ) (sid : ℕ)
    (arr : List (List (List ℚ))) : List SampleRow :=
  (List.range outputs.length).flatMap (fun oid =>
    (List.range times.length).map (fun t =>
      ⟨sid, outputs.getD oid "", times.getD t 0, ((arr.getD oid []).getD t []).getD 0 0⟩))

/-- The arguments PriorPredictiveModel.sample passes to the underlying
PredictiveModel.sample on each draw (src/erlotinib/_predictive_models.py,
lines 504-517): draw k (1-based sample id k+1 for k+1 in 1..n_samples)
passes the k+1-th prior draw as parameters, the full requested n_samples,
and, when a base seed is supplied, the seed base + (k+1); with no seed,
None. The prior is modelled as the indexed stream of vectors its
successive sample() calls return. Each returned triple is
(parameters, n_samples argument, seed argument). -/
def priorInnerCalls (n_samples : ℕ) (seed : Option ℤ) (priorDraw : ℕ → List ℚ) :
    List (List ℚ × ℕ × Option ℤ) :=
  (List.range n_samples).map (fun k =>
    let sample_id := k + 1
    (priorDraw sample_id, n_samples, seed.map (fun s => s + (sample_id : ℤ))))

/-- PriorPredictiveModel.sample (src/erlotinib/_predictive_models.py,
lines 458-527): sorts the times, then for each 1-based sample id draws a
parameter vector from the prior, calls the predictive model (modelled as
the function pm, already specialised to return_df=False) with those
parameters, the sorted times, the full n_samples and the per-draw seed,
and keeps column 0 of every output. -/
def priorSample (pm : List ℚ → List ℚ → ℕ → Option ℤ → List (List (List ℚ)))
    (priorDraw : ℕ → List ℚ) (outputs : List String) (times : List ℚ)
    (n_samples : ℕ) (seed : Option ℤ) : List SampleRow :=
  let sorted_times := npSort times
  (List.range n_samples).flatMap (fun k =>
    let sample_id := k + 1
    let parameters := priorDraw sample_id
    let seed2 := seed.map (fun s => s + (sample_id : ℤ))
    let arr := pm parameters sorted_times n_samples seed2
    sampleRowsFor outputs sorted_times sample_id arr)

/-- Modelled from the spec: the OptimisationController source module is
not under src (only its tests are), so its run loop is modelled from the
spec, section 4.4 and section 7. An individual optimisation run either
succeeds with an estimate vector and a finite score, or fails: the
numerical optimiser returns a non-finite score, or raises an internal
numerical error. -/
inductive RunOutcome where
  | success (estimate : List ℚ) (score : ℚ)
  | nonfiniteScore
  | numericalError
deriving DecidableEq

/-- True when the run outcome is a success. -/
def RunOutcome.isSuccess : RunOutcome → Bool
  | .success _ _ => true
  | _ => false

/-- One row of the optimisation result table: columns Parameter,
Estimate, Score, Run. -/
structure RunRow where
  parameter : String
  estimate : ℚ
  score : ℚ
  run : ℕ
deriving DecidableEq

/-- Modelled from the spec: OptimisationController.run (spec sections 4.4
and 7; the controller source module is not under src). Executes n_runs
independent runs with 1-based run indices; the numerical optimiser is
modelled as the map from run index to outcome. A successful run
contributes one row per free parameter, pairing the free-parameter names
with the estimate entries, all carrying the score and index of the run; a
failed run is caught and contributes nothing, and never aborts the
batch — the function is total and always returns the table of the
successful runs. -/
def OptimisationController.run (freeParams : List String) (n_runs : ℕ)
    (optimise : ℕ → RunOutcome) : List RunRow :=
  (List.range n_runs).flatMap (fun k =>
    let run_id := k + 1
    match optimise run_id with
    | .success estimate score =>
      (freeParams.zip estimate).map (fun pe => ⟨pe.1, pe.2, score, run_id⟩)
    | _ => [])

/-- The number of successful runs among the 1-based run indices 1..n. -/
def countSuccess (n_runs : ℕ) (optimise : ℕ → RunOutcome) : ℕ :=
  ((List.range n_runs).filter (fun k => (optimise (k + 1)).isSuccess)).length

/-- A concrete three-parameter objective used to instantiate theorems:
the sum of its inputs. -/
def lpW : LogPDF := ⟨fun l => l.sum, 3⟩

/-- A concrete mask fixing parameters 0 and 2. -/
def maskW : List PyVal := [.pybool true, .pybool false, .pybool true]

/-- Concrete fixed values for the two fixed positions of maskW. -/
def valuesW : List ℚ := [10, 20]

/-- The adapter state ReducedLogPDF.init builds from lpW, maskW, valuesW. -/
def rW : ReducedLogPDF := ⟨lpW.f, [some 10, none, some 20], [false, true, false], 1⟩

/-- A concrete periodic dose event: rate 1, duration 1, start 0, period 2,
indefinite repetition (multiplier 0). -/
def evW : DoseEvent := ⟨1, 1, 0, 2, 0⟩

/-- A concrete one-shot dose event starting at time 5. -/
def evLate : DoseEvent := ⟨1, 1, 5, 0, 1⟩

/-- A concrete mechanistic model with no parameters whose single output
echoes the time grid it is simulated over. -/
def mechCex : MechanisticModel := ⟨0, fun _ ts => [ts], ["y"]⟩

/-- A concrete error model with no parameters that echoes the model
output as a single sample column per time point. -/
def emCex : ErrorModel := ⟨0, fun _ output _ _ => output.map (fun y => [y])⟩

/-- The predictive model combining mechCex and emCex. -/
def pmCex : PredictiveModel := ⟨mechCex, [emCex]⟩

/-- A concrete prior-draw stream: draw k is the one-entry vector [k]. -/
def priorW : ℕ → List ℚ := fun k => [(k : ℚ)]

/-- Concrete free-parameter names for controller runs. -/
def fpW : List String := ["a", "b"]

/-- A concrete optimiser outcome map: runs 1 and 3 succeed, run 2 raises
a numerical error. -/
def optW : ℕ → RunOutcome := fun i =>
  if i = 1 then .success [1, 2] 10
  else if i = 3 then .success [3, 4] 20
  else .numericalError

lemma count_true_cons_true (l : List Bool) :
    (true :: l).count true = l.count true + 1 := by
  simp

lemma count_true_cons_false (l : List Bool) :
    (false :: l).count true = l.count true := by
  simp

lemma count_false_cons_true (l : List Bool) :
    (true :: l).count false = l.count false := by
  simp

lemma count_false_cons_false (l : List Bool) :
    (false :: l).count false = l.count false + 1 := by
  simp

lemma count_false_add_count_true (l : List Bool) :
    l.count false + l.count true = l.length := by
  induction l with
  | nil => rfl
  | cons b t ih =>
    cases b
    · rw [count_false_cons_false, count_true_cons_false, List.length_cons]
      omega
    · rw [count_false_cons_true, count_true_cons_true, List.length_cons]
      omega

lemma count_true_map_not (l : List Bool) :
    (l.map (fun b => !b)).count true = l.count false := by
  induction l with
  | nil => rfl
  | cons b t ih =>
    cases b
    · simpa using ih
    · simpa using ih

lemma count_take_true_le (l : List Bool) (j : ℕ) : (l.take j).count true ≤ j :=
  le_trans (List.count_le_length _ _) (le_trans (List.length_take j l).le (min_le_left _ _))

lemma maskBools_length (l : List PyVal) : (maskBools l).length = l.length := by
  simp [maskBools]

lemma fill_eq_scatter : ∀ (m : List Bool) (vs fs : List ℚ),
    vs.length = m.count true → fs.length = m.count false →
    (writeMasked (writeMasked (List.replicate m.length none) m vs)
        (m.map (fun b => !b)) fs).map (fun o => o.getD 0) = scatter m vs fs := by
  intro m
  induction m with
  | nil =>
    intro vs fs _ _
    rfl
  | cons b ms ih =>
    intro vs fs hv hf
    cases b with
    | true =>
      cases vs with
      | nil => rw [count_true_cons_true] at hv; simp at hv
      | cons v vs2 =>
        rw [count_true_cons_true, List.length_cons] at hv
        rw [count_false_cons_true] at hf
        simp only [List.replicate, List.length_cons, writeMasked, List.map_cons,
          Bool.not_true, scatter]
        rw [ih vs2 fs (by omega) hf]
        rfl
    | false =>
      cases fs with
      | nil => rw [count_false_cons_false] at hf; simp at hf
      | cons f fs2 =>
        rw [count_true_cons_false] at hv
        rw [count_false_cons_false, List.length_cons] at hf
        simp only [List.replicate, List.length_cons, writeMasked, List.map_cons,
          Bool.not_false, scatter]
        rw [ih vs fs2 hv (by omega)]
        rfl

lemma scatter_getD : ∀ (m : List Bool) (vs fs : List ℚ) (j : ℕ),
    vs.length = m.count true → fs.length = m.count false → j < m.length →
    (scatter m vs fs).getD j 0 =
      if m.getD j false then vs.getD ((m.take j).count true) 0
      else fs.getD (j - (m.take j).count true) 0 := by
  intro m
  induction m with
  | nil =>
    intro vs fs j _ _ hj
    simp at hj
  | cons b ms ih =>
    intro vs fs j hv hf hj
    cases b with
    | true =>
      cases vs with
      | nil => rw [count_true_cons_true] at hv; simp at hv
      | cons v vs2 =>
        rw [count_true_cons_true, List.length_cons] at hv
        rw [count_false_cons_true] at hf
        cases j with
        | zero => simp [scatter]
        | succ j2 =>
          rw [List.length_cons] at hj
          simp only [scatter, List.getD_cons_succ, List.take_succ_cons,
            count_true_cons_true]
          have hc : (ms.take j2).count true ≤ j2 := count_take_true_le ms j2
          have harith : j2 + 1 - ((ms.take j2).count true + 1) =
              j2 - (ms.take j2).count true := by omega
          rw [harith, ih vs2 fs j2 (by omega) hf (by omega)]
    | false =>
      cases fs with
      | nil => rw [count_false_cons_false] at hf; simp at hf
      | cons f fs2 =>
        rw [count_true_cons_false] at hv
        rw [count_false_cons_false, List.length_cons] at hf
        cases j with
        | zero => simp [scatter]
        | succ j2 =>
          rw [List.length_cons] at hj
          simp only [scatter, List.getD_cons_succ, List.take_succ_cons,
            count_true_cons_false]
          have hc : (ms.take j2).count true ≤ j2 := count_take_true_le ms j2
          have harith : j2 + 1 - (ms.take j2).count true =
              (j2 - (ms.take j2).count true) + 1 := by omega
          rw [harith, List.getD_cons_succ, ih vs fs2 j2 hv (by omega) (by omega)]

lemma ReducedLogPDF.init_ok_of {lp : LogPDF} {mask : List PyVal} {values : List ℚ}
    (h1 : mask.length = lp.n_parameters) (h2 : boolDtype mask = true)
    (h3 : (maskBools mask).count true = values.length) :
    ReducedLogPDF.init lp mask values = .ok {
      log_pdf := lp.f
      parameters := writeMasked (List.replicate mask.length none) (maskBools mask) values
      free_mask := (maskBools mask).map (fun b => !b)
      n_parameters := ((maskBools mask).map (fun b => !b)).count true } := by
  rw [ReducedLogPDF.init]
  simp [h1, h2, h3]

lemma ReducedLogPDF.init_eq_ok {lp : LogPDF} {mask : List PyVal} {values : List ℚ}
    {r : ReducedLogPDF} (h : ReducedLogPDF.init lp mask values = .ok r) :
    mask.length = lp.n_parameters ∧ boolDtype mask = true ∧
      (maskBools mask).count true = values.length ∧
      r = {
        log_pdf := lp.f
        parameters := writeMasked (List.replicate mask.length none) (maskBools mask) values
        free_mask := (maskBools mask).map (fun b => !b)
        n_parameters := ((maskBools mask).map (fun b => !b)).count true } := by
  simp only [ReducedLogPDF.init] at h
  split_ifs at h with h1 h2 h3
  push_neg at h1 h3
  have h2b : boolDtype mask = true := by simpa using h2
  refine ⟨h1, h2b, h3, ?_⟩
  simpa [eq_comm] using h

/-- C1: for every objective with n parameters, every boolean mask of
length n and every fixed-values sequence of matching count, invoking the
constructed ReducedLogPDF adapter on a free-parameter vector of length
n minus count(mask) calls the wrapped objective once with the full-length
vector in which the i-th free input occupies the i-th non-fixed position
in ascending index order and every fixed position holds its fixed value
(position j holds the fixed value of rank count of true entries before j,
respectively the free input of rank j minus that count), and returns the
scalar result of the objective. -/
theorem claim_C1_call_scatters (lp : LogPDF) (mask : List PyVal) (values : List ℚ)
    (r : ReducedLogPDF) (free : List ℚ)
    (hOk : ReducedLogPDF.init lp mask values = .ok r)
    (hfree : free.length = lp.n_parameters - (maskBools mask).count true) :
    r.call free = lp.f (scatter (maskBools mask) values free) ∧
    ∀ j, j < lp.n_parameters →
      (scatter (maskBools mask) values free).getD j 0 =
        if (maskBools mask).getD j false
        then values.getD (((maskBools mask).take j).count true) 0
        else free.getD (j - ((maskBools mask).take j).count true) 0 := by
  obtain ⟨h1, h2b, h3, hr⟩ := ReducedLogPDF.init_eq_ok hOk
  have hlen : (maskBools mask).length = lp.n_parameters := by
    rw [maskBools_length, h1]
  have hcf : (maskBools mask).count false + (maskBools mask).count true =
      lp.n_parameters := by
    rw [count_false_add_count_true, hlen]
  have hvlen : values.length = (maskBools mask).count true := h3.symm
  have hflen : free.length = (maskBools mask).count false := by omega
  constructor
  · subst hr
    simp only [ReducedLogPDF.call]
    congr 1
    rw [show mask.length = (maskBools mask).length from (maskBools_length mask).symm]
    exact fill_eq_scatter (maskBools mask) values free hvlen hflen
  · intro j hj
    exact scatter_getD (maskBools mask) values free j hvlen hflen (by omega)

/-- C1 witness: the adapter built over the three-parameter sum objective
with mask [true, false, true] and fixed values [10, 20], called on the
free vector [7], returns the objective applied to the scattered full
vector. -/
theorem claim_C1_witness :
    ReducedLogPDF.call rW [7] = lpW.f (scatter (maskBools maskW) valuesW [7]) :=
  (claim_C1_call_scatters lpW maskW valuesW rW [7] rfl rfl).1

/-- C6: constructing a ReducedLogPDF raises a validation error if and
only if the mask length differs from the parameter count of the wrapped
objective, or the mask is not strictly boolean (its numpy dtype is not bool),
or the number of fixed values differs from the number of true mask
entries; for valid inputs the construction succeeds. -/
theorem claim_C6_init_validation (lp : LogPDF) (mask : List PyVal) (values : List ℚ) :
    (ReducedLogPDF.init lp mask values).isOk = false ↔
      (mask.length ≠ lp.n_parameters ∨ boolDtype mask = false ∨
        (maskBools mask).count true ≠ values.length) := by
  simp only [ReducedLogPDF.init]
  split_ifs with h1 h2 h3
  · exact iff_of_true rfl (Or.inl h1)
  · have h2b : boolDtype mask = false := by simpa using h2
    exact iff_of_true rfl (Or.inr (Or.inl h2b))
  · exact iff_of_true rfl (Or.inr (Or.inr h3))
  · have h2b : boolDtype mask = true := by simpa using h2
    push_neg at h1 h3
    exact iff_of_false (by simp [Except.isOk, Except.toBool]) (by simp [h1, h2b, h3])

/-- C7: an adapter built from (objective, mask, values), and one built
from the same triple after an intermediate construction with the
all-false mask and no fixed values, produce identical scalar outputs on
every identical free-parameter input (construction is pure, so the
intermediate adapter shares no state with the others). -/
theorem claim_C7_reconfiguration_roundtrip (lp : LogPDF) (mask : List PyVal)
    (values : List ℚ) (free : List ℚ)
    (h : (ReducedLogPDF.init lp mask values).isOk = true) :
    ReducedLogPDF.callE (ReducedLogPDF.buildAfterIntermediate lp mask values) free =
      ReducedLogPDF.callE (ReducedLogPDF.init lp mask values) free := by
  cases hinit : ReducedLogPDF.init lp mask values with
  | error e => rw [hinit] at h; simp [Except.isOk, Except.toBool] at h
  | ok r =>
    obtain ⟨h1, h2b, h3, _⟩ := ReducedLogPDF.init_eq_ok hinit
    have hne : mask ≠ [] := by
      intro hm
      rw [hm] at h2b
      simp [boolDtype] at h2b
    have hn1 : 0 < lp.n_parameters := by
      have := List.length_pos.mpr hne
      omega
    obtain ⟨k, hk⟩ : ∃ k, lp.n_parameters = k + 1 := ⟨lp.n_parameters - 1, by omega⟩
    have hint := @ReducedLogPDF.init_ok_of lp
      (List.replicate lp.n_parameters (PyVal.pybool false)) []
      (by simp)
      (by rw [hk]; simp [boolDtype, List.replicate_succ, PyVal.isBool, List.all_eq_true])
      (by simp [maskBools, List.map_replicate, List.count_replicate])
    simp only [ReducedLogPDF.buildAfterIntermediate, hint]
    rw [hinit]

/-- C7 witness: over the three-parameter sum objective with mask
[true, false, true] and values [10, 20], the direct adapter and the
adapter rebuilt after the all-false intermediate configuration agree on
the free input [7]. -/
theorem claim_C7_witness :
    ReducedLogPDF.callE (ReducedLogPDF.buildAfterIntermediate lpW maskW valuesW) [7] =
      ReducedLogPDF.callE (ReducedLogPDF.init lpW maskW valuesW) [7] :=
  claim_C7_reconfiguration_roundtrip lpW maskW valuesW [7] rfl

/-- C8: for every validly constructed ReducedLogPDF over an objective
with n parameters and a mask with k true entries, the stored
free-parameter count n_parameters is n minus k. -/
theorem claim_C8_reduced_count (lp : LogPDF) (mask : List PyVal) (values : List ℚ)
    (r : ReducedLogPDF) (hOk : ReducedLogPDF.init lp mask values = .ok r) :
    r.n_parameters = lp.n_parameters - (maskBools mask).count true := by
  obtain ⟨h1, _, _, hr⟩ := ReducedLogPDF.init_eq_ok hOk
  rw [hr]
  show ((maskBools mask).map (fun b => !b)).count true = _
  rw [count_true_map_not]
  have hcf := count_false_add_count_true (maskBools mask)
  rw [maskBools_length, h1] at hcf
  omega

/-- C8 witness: the adapter over the three-parameter objective with two
fixed parameters reports 3 - 2 free parameters. -/
theorem claim_C8_witness :
    rW.n_parameters = lpW.n_parameters - (maskBools maskW).count true :=
  claim_C8_reduced_count lpW maskW valuesW rW rfl

/-- C10: get_dosing_regimen returns None and raises no error when the
mechanistic model does not support dosing regimens, when no regimen is
set (in both cases for every final_time, negative included, since the
validation is skipped), and when a regimen is set but no dose event
starts at or before the supplied non-negative final_time. -/
theorem claim_C10_none_paths :
    (∀ ft, getDosingRegimen none ft = .ok none) ∧
    (∀ ft, getDosingRegimen (some none) ft = .ok none) ∧
    (∀ (reg : List DoseEvent) (t : ℚ), 0 ≤ t → (∀ ev ∈ reg, t < ev.start) →
      getDosingRegimen (some (some reg)) (some t) = .ok none) := by
  refine ⟨fun ft => rfl, fun ft => rfl, ?_⟩
  intro reg t ht hlate
  simp only [getDosingRegimen]
  rw [if_neg (not_lt.mpr ht)]
  have hrows : reg.flatMap (fun ev => eventRows ev (some t)) = [] := by
    rw [List.flatMap_eq_nil_iff]
    intro ev hev
    simp only [eventRows]
    rw [if_pos (hlate ev hev)]
  rw [hrows]
  rfl

/-- C10 witness: a model with no dosing support and a model with no set
regimen return None at final_time -1, and a regimen whose only event
starts at 5 returns None at final_time 3. -/
theorem claim_C10_witness :
    getDosingRegimen none (some (-1)) = .ok none ∧
    getDosingRegimen (some none) (some (-1)) = .ok none ∧
    getDosingRegimen (some (some [evLate])) (some 3) = .ok none :=
  ⟨claim_C10_none_paths.1 (some (-1)), claim_C10_none_paths.2.1 (some (-1)),
    claim_C10_none_paths.2.2 [evLate] 3 (by decide) (by decide)⟩

/-- C9 counterexample: the claim says every negative final_time raises a
validation error, but on a model without dosing support
get_dosing_regimen(-1) returns None and raises nothing. -/
theorem claim_C9_counterexample :
    getDosingRegimen none (some (-1)) = .ok none := rfl

/-- C9 amended: when the mechanistic model supports dosing regimens and a
regimen is set, every negative final_time raises the validation error;
when dosing is unsupported or no regimen is set, the check is skipped and
None is returned. -/
theorem claim_C9_negative_final_time (reg : List DoseEvent) (t : ℚ) (h : t < 0) :
    getDosingRegimen (some (some reg)) (some t) =
      .error "The final dose time has to be positive." ∧
    getDosingRegimen none (some t) = .ok none ∧
    getDosingRegimen (some none) (some t) = .ok none := by
  refine ⟨?_, rfl, rfl⟩
  simp only [getDosingRegimen]
  rw [if_pos h]

/-- C9 witness: with a set (empty) regimen, final_time -1 raises; without
dosing support or a set regimen, final_time -1 returns None. -/
theorem claim_C9_witness :
    getDosingRegimen (some (some ([] : List DoseEvent))) (some (-1)) =
      .error "The final dose time has to be positive." :=
  (claim_C9_negative_final_time [] (-1) (by decide)).1

/-- C3: evaluation of get_dosing_regimen on the periodic regimen with
start 0, period 2 and unbounded repetition. With final_time None the
table has the single first dose at time 0, as the claim says; with
final_time 7 the code computes n_doses as the floor of 7 / 2 = 3
independently of the start time and so registers only the doses at times
0, 2 and 4 — not the dose at time 6 that is also at or before 7 required
by the claim (and by the docstring of the method, which promises doses up
to the final time). -/
theorem claim_C3_truncation_divergence :
    (getDosingRegimen (some (some [evW])) none).map
        (Option.map (List.map DoseRow.time)) = .ok (some [0]) ∧
    (getDosingRegimen (some (some [evW])) (some 7)).map
        (Option.map (List.map DoseRow.time)) = .ok (some [0, 2, 4]) ∧
    ([0, 2, 4] : List ℚ) ≠ [0, 2, 4, 6] := by
  have hnone : eventRows evW none = [⟨0, 1, 1⟩] := by
    simp only [eventRows, evW]
    norm_num [List.range_succ]
  have h7 : eventRows evW (some 7) = [⟨0, 1, 1⟩, ⟨2, 1, 1⟩, ⟨4, 1, 1⟩] := by
    have hfloor : Rat.floor ((7:ℚ) / 2) = 3 := by
      rw [show ((7:ℚ)/2) = Rat.divInt 7 2 from by norm_num [Rat.divInt]]
      decide
    simp only [eventRows, evW]
    norm_num [hfloor, List.range_succ, List.filter]
  refine ⟨?_, ?_, by decide⟩
  · simp [getDosingRegimen, hnone, Except.map]
  · simp [getDosingRegimen, h7, Except.map, show ¬(7:ℚ) < 0 from by decide]

lemma buildContainer_getD : ∀ (ems : List ErrorModel) (errp : List ℚ)
    (outs : List (List ℚ)) (n : ℕ) (s : Option ℤ) (i : ℕ), i < ems.length →
    (buildContainer ems errp outs n s).getD i [] =
      (ems.getD i default).sample
        ((errp.drop (errOffset ems i)).take (ems.getD i default).n_parameters)
        (outs.getD i []) n s := by
  intro ems
  induction ems with
  | nil =>
    intro _ _ _ _ i hi
    simp at hi
  | cons em rest ih =>
    intro errp outs n s i hi
    cases i with
    | zero =>
      simp only [buildContainer, List.getD_cons_zero, errOffset, List.take_zero,
        List.map_nil, List.sum_nil, List.drop_zero]
      congr 1
      cases outs <;> rfl
    | succ i2 =>
      simp only [buildContainer, List.getD_cons_succ]
      rw [ih (errp.drop em.n_parameters) outs.tail n s i2 (by simpa using hi)]
      have hoff : errOffset (em :: rest) (i2 + 1) = errOffset rest i2 + em.n_parameters := by
        simp only [errOffset, List.take_succ_cons, List.map_cons, List.sum_cons]
        omega
      have houts : outs.tail.getD i2 = outs.getD (i2 + 1) := by
        cases outs <;> rfl
      rw [List.drop_drop, hoff, houts, Nat.add_comm em.n_parameters (errOffset rest i2)]

/-- C5 amended: for every parameter vector of the correct total length,
sample splits the parameters into the mechanistic prefix followed by one
contiguous error-model slice per output in output order, and calls the
mechanistic simulate exactly once, over the sorted times with duplicates
preserved (a permutation of the input, not de-duplicated). -/
theorem claim_C5_split_single_solve (m : PredictiveModel) (p t : List ℚ)
    (n : ℕ) (s : Option ℤ) (hp : p.length = m.n_parameters) :
    PredictiveModel.sampleContainer m p t n s =
      .ok (buildContainer m.error_models (p.drop m.mechanistic.n_parameters)
        (m.mechanistic.simulate (p.take m.mechanistic.n_parameters) (npSort t)) n s) ∧
    List.Sorted (fun a b => a ≤ b) (npSort t) ∧ (npSort t).Perm t ∧
    ∀ i, i < m.error_models.length →
      (buildContainer m.error_models (p.drop m.mechanistic.n_parameters)
        (m.mechanistic.simulate (p.take m.mechanistic.n_parameters) (npSort t)) n s).getD i []
      = (m.error_models.getD i default).sample
          (((p.drop m.mechanistic.n_parameters).drop (errOffset m.error_models i)).take
            (m.error_models.getD i default).n_parameters)
          ((m.mechanistic.simulate (p.take m.mechanistic.n_parameters) (npSort t)).getD i [])
          n s := by
  refine ⟨?_, List.sorted_insertionSort _ _, List.perm_insertionSort _ _, ?_⟩
  · simp only [PredictiveModel.sampleContainer]
    rw [if_neg (by simp [hp])]
  · intro i hi
    exact buildContainer_getD m.error_models (p.drop m.mechanistic.n_parameters)
      (m.mechanistic.simulate (p.take m.mechanistic.n_parameters) (npSort t)) n s i hi

/-- C5 witness: on the concrete time-echo model with an empty parameter
vector, sample factors through one simulate call over npSort [1, 1]. -/
theorem claim_C5_witness :
    PredictiveModel.sampleContainer pmCex [] [1, 1] 1 none =
      .ok (buildContainer pmCex.error_models (([] : List ℚ).drop pmCex.mechanistic.n_parameters)
        (pmCex.mechanistic.simulate (([] : List ℚ).take pmCex.mechanistic.n_parameters)
          (npSort [1, 1])) 1 none) :=
  (claim_C5_split_single_solve pmCex [] [1, 1] 1 none rfl).1

/-- C5 counterexample: the claim says simulate is called over the sorted,
de-duplicated times, but on times [1, 1] the code hands simulate the
sorted list [1, 1] with the duplicate kept: the time-echo model exposes
the two-entry grid in the result, while the claimed de-duplicated grid
would have one entry. -/
theorem claim_C5_counterexample :
    PredictiveModel.sampleContainer pmCex [] [1, 1] 1 none = .ok [[[1], [1]]] ∧
    npSort [1, 1] = [1, 1] ∧ sortedDedupTimes [1, 1] = [1] ∧
    ¬([1, 1] : List ℚ) = [1] := by
  refine ⟨rfl, by decide, by decide, by decide⟩

/-- C4 amended: PriorPredictiveModel.sample draws one parameter vector
from the prior per requested sample (draw k+1 uses the k+1-th prior
draw, 1-based), and each inner call to PredictiveModel.sample passes the
full requested n_samples (not 1; only the first sample column of each
result is kept) and the per-draw seed base_seed plus the 1-based draw
index when a seed is supplied, None otherwise. -/
theorem claim_C4_per_draw_calls (n : ℕ) (seed : Option ℤ) (pr : ℕ → List ℚ) :
    (priorInnerCalls n seed pr).length = n ∧
    ∀ k, k < n →
      (priorInnerCalls n seed pr).getD k ([], 0, none) =
        (pr (k + 1), n, seed.map (fun s => s + (↑(k + 1) : ℤ))) := by
  constructor
  · simp [priorInnerCalls]
  · intro k hk
    rw [List.getD_eq_getElem _ _ (by simpa [priorInnerCalls] using hk)]
    simp [priorInnerCalls]

/-- C4 witness: with two requested samples, base seed 5 and the concrete
prior stream, the second inner call receives the second prior draw, the
full n_samples 2 and seed 5 + 2. -/
theorem claim_C4_witness :
    (priorInnerCalls 2 (some 5) priorW).getD 1 ([], 0, none) =
      (priorW (1 + 1), 2, Option.map (fun s => s + (↑(1 + 1) : ℤ)) (some 5)) :=
  (claim_C4_per_draw_calls 2 (some 5) priorW).2 1 (by decide)

/-- C4 counterexample: the claim says the underlying sample is called
with n_samples equal to 1, but with two requested samples both inner
calls receive n_samples 2 (and seeds 6 and 7). -/
theorem claim_C4_counterexample :
    ((priorInnerCalls 2 (some 5) priorW).map (fun c => c.2.1)) = [2, 2] ∧
    ((priorInnerCalls 2 (some 5) priorW).map (fun c => c.2.2)) = [some 6, some 7] ∧
    ¬(2 : ℕ) = 1 := by
  refine ⟨rfl, rfl, by decide⟩

lemma sum_map_ite_length (l : List ℕ) (p : ℕ → Bool) (c : ℕ) :
    (l.map (fun k => if p k then c else 0)).sum = c * (l.filter p).length := by
  induction l with
  | nil => simp
  | cons a t ih =>
    by_cases h : p a
    · simp only [List.map_cons, List.sum_cons, List.filter_cons, h, if_true, if_pos,
        List.length_cons, ih]
      rw [Nat.mul_succ]
      omega
    · simp [h, List.filter_cons, ih]

/-- C2: during a batch of n runs, a failed run (non-finite score or
internal numerical error) is excluded from the result table and aborts
nothing: run is a total function that always returns a table with one row
per free parameter per successful run, and every returned row belongs to
a successful run with a 1-based index between 1 and n. -/
theorem claim_C2_failure_isolation (fp : List String) (n : ℕ) (opt : ℕ → RunOutcome)
    (hlen : ∀ i est sc, opt i = .success est sc → est.length = fp.length) :
    (OptimisationController.run fp n opt).length = fp.length * countSuccess n opt ∧
    ∀ row ∈ OptimisationController.run fp n opt,
      1 ≤ row.run ∧ row.run ≤ n ∧ (opt row.run).isSuccess = true := by
  constructor
  · rw [OptimisationController.run, List.length_flatMap, countSuccess,
      ← sum_map_ite_length (List.range n) (fun k => (opt (k + 1)).isSuccess) fp.length]
    congr 1
    apply List.map_congr_left
    intro k hk
    cases hopt : opt (k + 1) with
    | success est sc =>
      simp [hopt, RunOutcome.isSuccess, List.length_zip, hlen _ _ _ hopt]
    | nonfiniteScore => simp [hopt, RunOutcome.isSuccess]
    | numericalError => simp [hopt, RunOutcome.isSuccess]
  · intro row hrow
    rw [OptimisationController.run] at hrow
    obtain ⟨k, hk, hrow2⟩ := List.mem_flatMap.mp hrow
    have hkn : k < n := List.mem_range.mp hk
    cases hopt : opt (k + 1) with
    | success est sc =>
      simp only [hopt] at hrow2
      obtain ⟨pe, _, hpe⟩ := List.mem_map.mp hrow2
      have hrun : row.run = k + 1 := by rw [← hpe]
      refine ⟨by omega, by omega, ?_⟩
      rw [hrun, hopt]
      rfl
    | nonfiniteScore =>
      simp only [hopt] at hrow2
      simp at hrow2
    | numericalError =>
      simp only [hopt] at hrow2
      simp at hrow2

/-- C2 witness: with free parameters [a, b] and three runs of which run 2
raises a numerical error, the result table has 2 * 2 rows. -/
theorem claim_C2_witness :
    (OptimisationController.run fpW 3 optW).length = fpW.length * countSuccess 3 optW :=
  (claim_C2_failure_isolation fpW 3 optW (by
    intro i est sc h
    rw [optW] at h
    split_ifs at h with h1 h2
    · cases h
      rfl
    · cases h
      rfl)).1
